import Mathlib

/-!
Shallow embedding of the jitsu node-script factory (`script/node`, file with
`CreateScript`, `escapeJSON`, `installNodeModules`, `getExpression`,
`getDependencies`, `sanitizeVariables`, `readPackageJSON`, `createPackageJSON`)
and of the template-testing HTTP handler (`server/handlers/templates.go`).

Go interface values, maps and multi-results are embedded explicitly:
`map[string]T` becomes an association list, `error` becomes `Option GoError`
(`none` = nil error), a Go function that can panic returns through `Res`.
-/

namespace Node

/-- `script.Executable` is an interface; the two variants the factory knows are
`script.Expression` (raw source text) and `script.Package` (package name).
`other` stands for any further implementation of the interface, hitting the
type-switch default cases. -/
inductive Executable where
  | expression (src : String)
  | package (name : String)
  | other
deriving DecidableEq

/-- Runtime kinds as returned by `reflect.Type.Kind()`, restricted to the kinds
a variable-bag value can have in this embedding. -/
inductive Kind where
  | funcKind
  | boolKind
  | numKind
  | strKind
deriving DecidableEq

/-- A value stored in the `map[string]interface{}` variable bag. `vnil` is the
nil interface value. `vfunc` is any value of function kind. -/
inductive Value where
  | vnil
  | vbool (b : Bool)
  | vnum (n : Int)
  | vstr (s : String)
  | vfunc
deriving DecidableEq

/-- `reflect.TypeOf(v)`: returns the nil `reflect.Type` (here `none`) exactly
when `v` is the nil interface; calling `.Kind()` on that nil type panics. -/
def reflectTypeKind : Value → Option Kind
  | .vnil => none
  | .vbool _ => some .boolKind
  | .vnum _ => some .numKind
  | .vstr _ => some .strKind
  | .vfunc => some .funcKind

/-- Errors built with `github.com/pkg/errors`. -/
inductive GoError where
  | errorf (msg : String)
  | wrap (msg : String) (cause : GoError)
deriving DecidableEq

/-- `errors.Wrapf(err, msg)`: returns the nil error when `err` is nil. -/
def wrapf : Option GoError → String → Option GoError
  | none, _ => none
  | some e, m => some (.wrap m e)

/-- Result of a Go call that can also panic. -/
inductive Res (α : Type) where
  | ok (a : α)
  | err (e : GoError)
  | panic (msg : String)
deriving DecidableEq

/-- `getDependencies(executable)`. `Expression` returns the nil slice and nil
error; `Package` returns the one-element slice with the package name; the
default case returns an `unrecognized script executable` error. -/
def getDependencies : Executable → Except GoError (List String)
  | .expression _ => .ok []
  | .package name => .ok [name]
  | .other => .error (.errorf "unrecognized script executable")

/-- `sanitizeVariables(vars)`: copies into a fresh map every binding whose
value is not of function kind.  `reflect.TypeOf(value).Kind()` dereferences a
nil `reflect.Type` when `value` is the nil interface, which panics (`none`). -/
def sanitizeVariables : List (String × Value) → Option (List (String × Value))
  | [] => some []
  | kv :: rest =>
    match reflectTypeKind kv.2 with
    | none => none
    | some k =>
      match sanitizeVariables rest with
      | none => none
      | some out => some (if k = Kind.funcKind then out else kv :: out)

/-- Boolean test for function kind, used to state what `sanitizeVariables`
keeps. -/
def isFuncValue (v : Value) : Bool :=
  match v with
  | .vfunc => true
  | _ => false

/-- Lowercase hex digit, as used by `encoding/json` (`hex = "0123456789abcdef"`). -/
def hexDigitChar (n : Nat) : Char :=
  if n < 10 then Char.ofNat (48 + n) else Char.ofNat (87 + n)

/-- How `encoding/json` (with its default HTML escaping) renders one character
of a Go string inside the quoted output: quote and backslash get a backslash
escape, `\n`, `\r`, `\t` use their short escapes, other control characters and
the HTML-unsafe `<`, `>`, `&` become `\u00XX`, and U+2028/U+2029 become
their own unicode escapes. -/
def goJSONEscapeChar (c : Char) : List Char :=
  if c = '"' then ['\\', '"']
  else if c = '\\' then ['\\', '\\']
  else if c = '<' ∨ c = '>' ∨ c = '&' then
    ['\\', 'u', '0', '0', hexDigitChar (c.toNat / 16), hexDigitChar (c.toNat % 16)]
  else if c.toNat < 32 then
    if c = '\n' then ['\\', 'n']
    else if c = '\r' then ['\\', 'r']
    else if c = '\t' then ['\\', 't']
    else ['\\', 'u', '0', '0', hexDigitChar (c.toNat / 16), hexDigitChar (c.toNat % 16)]
  else if c.toNat = 0x2028 ∨ c.toNat = 0x2029 then
    ['\\', 'u', '2', '0', '2', hexDigitChar (c.toNat % 16)]
  else [c]

/-- `json.Marshal` of a Go string: opening quote, escaped characters, closing
quote. -/
def goMarshalString (s : List Char) : List Char :=
  '"' :: (s.flatMap goJSONEscapeChar ++ ['"'])

/-- `strings.Trim(s, "\"")`: removes ALL leading and ALL trailing double-quote
characters (not just one from each end). -/
def trimQuotes (s : List Char) : List Char :=
  ((s.dropWhile (fun c => c = '"')).reverse.dropWhile (fun c => c = '"')).reverse

/-- `escapeJSON` applied to a string value: `json.Marshal` then
`strings.Trim(string(data), "\"")`. -/
def escapeJSON (s : List Char) : List Char :=
  trimQuotes (goMarshalString s)

/-- Value of one `\u` hex digit in a JSON string literal. -/
def hexVal (c : Char) : Option Nat :=
  if 48 ≤ c.toNat ∧ c.toNat ≤ 57 then some (c.toNat - 48)
  else if 97 ≤ c.toNat ∧ c.toNat ≤ 102 then some (c.toNat - 87)
  else if 65 ≤ c.toNat ∧ c.toNat ≤ 70 then some (c.toNat - 55)
  else none

/-- JSON string-literal body decoder (everything after the opening quote): a
decoded list is returned only when the body is well formed, i.e. escapes are
legal, no unescaped control character or stray quote appears, and the closing
quote ends the input. -/
def decodeBody : List Char → Option (List Char)
  | [] => none
  | '"' :: rest => if rest = [] then some [] else none
  | '\\' :: '"' :: rest => (decodeBody rest).map (fun l => '"' :: l)
  | '\\' :: '\\' :: rest => (decodeBody rest).map (fun l => '\\' :: l)
  | '\\' :: '/' :: rest => (decodeBody rest).map (fun l => '/' :: l)
  | '\\' :: 'b' :: rest => (decodeBody rest).map (fun l => Char.ofNat 8 :: l)
  | '\\' :: 'f' :: rest => (decodeBody rest).map (fun l => Char.ofNat 12 :: l)
  | '\\' :: 'n' :: rest => (decodeBody rest).map (fun l => '\n' :: l)
  | '\\' :: 'r' :: rest => (decodeBody rest).map (fun l => '\r' :: l)
  | '\\' :: 't' :: rest => (decodeBody rest).map (fun l => '\t' :: l)
  | '\\' :: 'u' :: h1 :: h2 :: h3 :: h4 :: rest =>
    match hexVal h1, hexVal h2, hexVal h3, hexVal h4 with
    | some a, some b, some c, some d =>
      (decodeBody rest).map (fun l => Char.ofNat (((a * 16 + b) * 16 + c) * 16 + d) :: l)
    | _, _, _, _ => none
  | '\\' :: _ => none
  | c :: rest => if c.toNat < 32 then none else (decodeBody rest).map (fun l => c :: l)

/-- JSON string-literal decoder: opening quote, body, closing quote. -/
def decodeJSONString : List Char → Option (List Char)
  | '"' :: rest => decodeBody rest
  | _ => none

/-- The fields of `package.json` the factory reads (`packageJSON` struct). -/
structure PackageJSON where
  main : String
  dependencies : List (String × String)
deriving DecidableEq

/-- The factory's fixed harness-support packages with their pinned versions
(`Factory()`): `node-fetch@2` and `vm2@3`. -/
def factoryPackages : List (String × String) := [("node-fetch", "2"), ("vm2", "3")]

/-- The dependency filter inside the `Package` case of `getExpression`: the
names installed in the manifest that are not among the factory's
harness-support package names (`if _, ok := f.packages[dependency]; !ok`). -/
def nonHarnessDeps (m : PackageJSON) : List String :=
  (m.dependencies.map Prod.fst).filter
    (fun d => !((factoryPackages.map Prod.fst).contains d))

/-- Outcomes of the filesystem reads `getExpression` performs for a `Package`
executable: the re-read runtime `package.json` of the provisioned directory,
the installed dependency's own `package.json` (by package name), and the
dependency's entry-point file (by package name and `main` field).  The
entry-point read collapses `os.Open` + `ioutil.ReadAll` into one fallible
read. -/
structure World where
  runtimeManifest : Except GoError PackageJSON
  depManifest : String → Except GoError PackageJSON
  mainFile : String → String → Except GoError String

/-- First raw-string literal of the `Expression` case of `getExpression`. -/
def expressionWrapHead : String :=
  "\nmodule.exports = async (event) => \x7b\n  let $ = event\n  let _ = event\n// expression start //\n"

/-- Second raw-string literal of the `Expression` case of `getExpression`. -/
def expressionWrapTail : String :=
  "\n// expression end //\n\x7d"

/-- `getExpression(dir, executable)`.  The `Expression` case wraps the literal
source between the two raw-string literals.  The `Package` case re-reads the
runtime manifest, filters its installed dependencies against the factory's
harness-support package names, and:
 * with more than one remaining dependency, executes
   `return "", errors.Wrapf(err, "multiple external dependencies found: %v", ...)`
   where `err` is the nil error of the successful manifest read just above, and
   `errors.Wrapf` of a nil error is nil — so the caller sees a nil error and an
   empty expression;
 * with zero remaining dependencies, evaluates `dependencies[0]` on an empty
   slice, which panics;
 * with exactly one, reads that dependency's manifest, rejects an empty `main`
   field, and returns the entry-point file's text verbatim. -/
def getExpression (w : World) : Executable → Res String
  | .expression src => .ok (expressionWrapHead ++ src ++ expressionWrapTail)
  | .package _ =>
    match w.runtimeManifest with
    | .error e => .err (.wrap "read runtime package.json" e)
    | .ok m =>
      let dependencies := nonHarnessDeps m
      if dependencies.length > 1 then
        match wrapf none "multiple external dependencies found" with
        | some e => .err e
        | none => .ok ""
      else
        match dependencies with
        | [] => .panic "index out of range [0] with length 0"
        | packageName :: _ =>
          match w.depManifest packageName with
          | .error e => .err (.wrap "read package.json main field" e)
          | .ok dm =>
            if dm.main = "" then
              .err (.errorf ("package.json main for " ++ packageName ++ " is empty"))
            else
              match w.mainFile packageName dm.main with
              | .error e => .err (.wrap "open main file" e)
              | .ok data => .ok data
  | .other => .err (.errorf "unrecognized executable")

/-- An external command invocation as built by `exec.CommandContext`: the
binary, its argument list, the working directory, and the context timeout that
bounds it. -/
structure Cmd where
  path : String
  args : List String
  dir : String
  timeoutMinutes : Nat
deriving DecidableEq

/-- How `installNodeModules` renders one pinned package for the `npm` argument
list: `name@version`, or the bare name when the version is empty. -/
def packageArg (p : String × String) : String :=
  if p.2 ≠ "" then p.1 ++ "@" ++ p.2 else p.1

/-- The single `npm` invocation `installNodeModules(dir, modules)` performs:
`install` followed by the factory's pinned packages and then the resolved
modules, run in `dir` under a 2-minute context timeout. -/
def installNodeModulesCmd (packages : List (String × String)) (dir : String)
    (modules : List String) : Cmd :=
  { path := "npm",
    args := "install" :: (packages.map packageArg ++ modules),
    dir := dir,
    timeoutMinutes := 2 }

/-- The filesystem as far as the factory touches it: which directories and
which file paths exist.  File contents are not tracked. -/
structure FS where
  dirs : List String
  files : List String
deriving DecidableEq

/-- `os.RemoveAll(d)`: drop the directory and everything under it. -/
def FS.removeDir (fs : FS) (d : String) : FS :=
  { dirs := fs.dirs.filter (fun x => x ≠ d),
    files := fs.files.filter (fun f => ¬ String.isPrefixOf (d ++ "/") f) }

/-- `os.MkdirAll(d, 0755)`. -/
def FS.addDir (fs : FS) (d : String) : FS :=
  { fs with dirs := d :: fs.dirs }

/-- `os.Create(path)` / writing a file at `path`. -/
def FS.addFile (fs : FS) (p : String) : FS :=
  { fs with files := p :: fs.files }

/-- Outcomes of the external effects `CreateScript` performs, fixed up front:
`exec.LookPath` for `node` and `npm`, the fallible directory and file
operations, the result of running the `npm install` command (true means exit 0
within the timeout; false covers a non-zero exit as well as the context
timeout killing it), the reads `getExpression` performs, the template
execution, and `ipc.Govern`. -/
structure Env where
  nodeFound : Bool
  npmFound : Bool
  removeAllOk : Bool
  mkdirOk : Bool
  createPkgFileOk : Bool
  writePkgFileOk : Bool
  runInstall : Cmd → Bool
  createScriptFileOk : Bool
  world : World
  templateExecOk : Bool
  governOk : Bool

/-- Result of `CreateScript`: a script handle bound to its directory, an
error, or a runtime panic. -/
inductive CreateResult where
  | ok (dir : String)
  | err (e : GoError)
  | panic (msg : String)
deriving DecidableEq

/-- `createPackageJSON(dir)`: create `dir/package.json` and write `\x7b\x7d`
into it. -/
def createPackageJSON (env : Env) (dir : String) (fs : FS) : Option GoError × FS :=
  if ¬ env.createPkgFileOk then (some (.errorf "create package.json"), fs)
  else
    let fs := fs.addFile (dir ++ "/package.json")
    if ¬ env.writePkgFileOk then (some (.errorf "write to package.json"), fs)
    else (none, fs)

/-- `CreateScript(executable, variables, includes...)`, with the fresh
`jitsu-nodejs-<uuid>` temp directory name passed in as `dir`.  Mirrors the
source's sequence: look up `node` and `npm`, purge and recreate the directory,
write the empty manifest, resolve dependencies, run the single `npm install`
command, create the script file, compute the expression, sanitize the
variables, execute the template, and govern the process.  Every error path
returns without removing the directory created earlier in the attempt. -/
def createScript (env : Env) (dir : String) (executable : Executable)
    (vars : List (String × Value)) (fs : FS) : CreateResult × FS :=
  if ¬ env.nodeFound then (.err (.errorf "node is not in PATH"), fs)
  else if ¬ env.npmFound then (.err (.errorf "npm is not in PATH"), fs)
  else if ¬ env.removeAllOk then (.err (.errorf "purge temp dir"), fs)
  else
    let fs := fs.removeDir dir
    if ¬ env.mkdirOk then (.err (.errorf "create temp dir"), fs)
    else
      let fs := fs.addDir dir
      match createPackageJSON env dir fs with
      | (some e, fs) => (.err (.wrap "create package.json" e), fs)
      | (none, fs) =>
        match getDependencies executable with
        | .error e => (.err (.wrap "get dependencies" e), fs)
        | .ok deps =>
          if ¬ env.runInstall (installNodeModulesCmd factoryPackages dir deps) then
            (.err (.errorf "install node modules"), fs)
          else if ¬ env.createScriptFileOk then (.err (.errorf "create main script"), fs)
          else
            let fs := fs.addFile (dir ++ "/main.cjs")
            match getExpression env.world executable with
            | .panic m => (.panic m, fs)
            | .err e => (.err (.wrap "get executable expression" e), fs)
            | .ok _ =>
              match sanitizeVariables vars with
              | none => (.panic "reflect: call of reflect.Type.Kind on nil Type", fs)
              | some _ =>
                if ¬ env.templateExecOk then (.err (.errorf "execute script template"), fs)
                else if ¬ env.governOk then (.err (.errorf "govern process"), fs)
                else (.ok dir, fs)

end Node


namespace Handlers

/-- `EvaluateTemplateRequest`: the JSON body of the template-testing endpoint.
A Go `map[string]interface{}` field that is absent decodes to a nil map,
modelled as `none`. -/
structure EvaluateTemplateRequest where
  object : Option (List (String × Node.Value))
  expression : String
  reformat : Bool

/-- `(*EvaluateTemplateRequest).Validate`: nil object and empty expression are
rejected with the corresponding message. -/
def EvaluateTemplateRequest.Validate (etr : EvaluateTemplateRequest) : Option String :=
  if etr.object = none then some "\x27object\x27 is required field"
  else if etr.expression = "" then some "\x27expression\x27 is required field"
  else none

/-- The JSON body of a response: either the middleware error body or an
`EvaluateTemplateResponse` carrying `result`, `message` (the `Error` field)
and `format`. -/
inductive ResponseBody where
  | errBody (message : String)
  | evalBody (result : String) (message : String) (format : String)
deriving DecidableEq

/-- Modelled from the spec: `middleware.ErrResponse(msg, err)` (the middleware
package is outside the provided sources) builds the error body whose `message`
field carries `msg`. -/
def middlewareErrResponse (msg : String) : ResponseBody := .errBody msg

/-- An HTTP response as produced by `c.JSON(status, body)`. -/
structure Response where
  status : Nat
  body : ResponseBody
deriving DecidableEq

/-- `EventTemplateHandler(c)`.  `bindOutcome` is the result of `c.BindJSON`;
`evaluateFn` and `evaluateReformattedFn` abstract `evaluate` and
`evaluateReformatted` (each returns result, format and an optional error, the
template engine being an external collaborator).  A parse failure answers 400
with the middleware body, a validation failure answers 400 with the validation
message, an evaluation error answers 400 with the error message in the
`message` field, and success answers 200 with result and format. -/
def eventTemplateHandler (bindOutcome : Except String EvaluateTemplateRequest)
    (evaluateFn : EvaluateTemplateRequest → String × String × Option String)
    (evaluateReformattedFn : EvaluateTemplateRequest → String × String × Option String) :
    Response :=
  match bindOutcome with
  | .error _ => ⟨400, middlewareErrResponse "Failed to parse body"⟩
  | .ok req =>
    match req.Validate with
    | some msg => ⟨400, middlewareErrResponse msg⟩
    | none =>
      let r := if req.reformat then evaluateReformattedFn req else evaluateFn req
      match r.2.2 with
      | some emsg => ⟨400, .evalBody r.1 emsg r.2.1⟩
      | none => ⟨200, .evalBody r.1 "" r.2.1⟩

end Handlers

namespace Node

/-- Does `pat` start `l`? -/
def seqStarts : List Char → List Char → Bool
  | [], _ => true
  | _ :: _, [] => false
  | p :: ps, c :: cs => (p == c) && seqStarts ps cs

/-- Does `pat` occur as a contiguous run inside `l`? -/
def seqContains (pat : List Char) : List Char → Bool
  | [] => seqStarts pat []
  | c :: cs => seqStarts pat (c :: cs) || seqContains pat cs

/-- A `World` whose reads all fail: used where `getExpression` must not reach
them, or does not use them. -/
def emptyWorld : World :=
  { runtimeManifest := .error (.errorf "open package.json"),
    depManifest := fun _ => .error (.errorf "open package.json"),
    mainFile := fun _ _ => .error (.errorf "open main file") }

/-- A `World` whose re-read runtime manifest lists the two harness-support
packages plus two further installed dependencies; both per-dependency reads
are wired to fail, so any attempt to read an entry point would surface. -/
def twoDepManifest : PackageJSON :=
  { main := "", dependencies := [("node-fetch", "2"), ("vm2", "3"), ("a", "1"), ("b", "1")] }

def twoDepWorld : World :=
  { emptyWorld with runtimeManifest := .ok twoDepManifest }

/-- A `World` whose re-read runtime manifest lists only the two
harness-support packages: zero non-harness dependencies. -/
def zeroDepManifest : PackageJSON :=
  { main := "", dependencies := [("node-fetch", "2"), ("vm2", "3")] }

def zeroDepWorld : World :=
  { emptyWorld with runtimeManifest := .ok zeroDepManifest }

/-- An `Env` in which every external effect succeeds. -/
def allOkEnv (w : World) : Env :=
  { nodeFound := true, npmFound := true, removeAllOk := true, mkdirOk := true,
    createPkgFileOk := true, writePkgFileOk := true, runInstall := fun _ => true,
    createScriptFileOk := true, world := w, templateExecOk := true, governOk := true }

/-- A `World` for the witness of claim C7: one non-harness dependency
`left-pad` whose manifest declares `index.js` as entry point, holding the text
`module.exports = x`. -/
def oneDepWorld : World :=
  { runtimeManifest := .ok
      { main := "", dependencies := [("node-fetch", "2"), ("vm2", "3"), ("left-pad", "1")] },
    depManifest := fun p =>
      if p = "left-pad" then .ok { main := "index.js", dependencies := [] }
      else .error (.errorf "open package.json"),
    mainFile := fun p f =>
      if p = "left-pad" ∧ f = "index.js" then .ok "module.exports = x"
      else .error (.errorf "open main file") }

/-- `allOkEnv` with the `npm install` invocation failing (non-zero exit or
context timeout). -/
def installFailEnv (w : World) : Env :=
  { allOkEnv w with runInstall := fun _ => false }

end Node

namespace Node

/-- Helper: a nil interface value anywhere in the bag makes
`sanitizeVariables` panic. -/
theorem sanitizeVariables_none_of_mem_nil (vars : List (String × Value)) (k : String)
    (h : (k, Value.vnil) ∈ vars) : sanitizeVariables vars = none := by
  induction vars with
  | nil => cases h
  | cons kv rest ih =>
    rcases List.mem_cons.mp h with h1 | h2
    · subst h1
      rfl
    · have hrest := ih h2
      cases hk : reflectTypeKind kv.2 with
      | none => simp [sanitizeVariables, hk]
      | some k2 => simp [sanitizeVariables, hk, hrest]

/-- Claim C4: `getDependencies` resolves an `Expression` to the empty package
list without error, a `Package` to exactly the one-element list holding the
package name, and any other executable variant to an unrecognized-executable
error. -/
theorem c4_getDependencies_resolution :
    (∀ src, getDependencies (.expression src) = .ok [])
    ∧ (∀ name, getDependencies (.package name) = .ok [name])
    ∧ (∃ e, getDependencies .other = .error e) :=
  ⟨fun _ => rfl, fun _ => rfl, ⟨.errorf "unrecognized script executable", rfl⟩⟩

/-- Claim C5 counterexample: the claim quantifies over every variable bag and
promises that every non-function binding survives; on the bag whose sole
binding carries the nil interface value (not a function), `sanitizeVariables`
panics instead of returning any sanitized bag at all. -/
theorem c5_counterexample_nil_value :
    sanitizeVariables [("a", Value.vnil)] = none := rfl

/-- Claim C5 (amended: restricted to bags with no nil interface values):
`sanitizeVariables` returns exactly the input with the function-kind bindings
removed — every non-function binding survives with its original value, in
order; the input list itself is untouched (the result is a fresh list). -/
theorem c5_sanitizeVariables_filters_functions (vars : List (String × Value))
    (h : ∀ kv ∈ vars, kv.2 ≠ Value.vnil) :
    sanitizeVariables vars = some (vars.filter (fun kv => !(isFuncValue kv.2))) := by
  induction vars with
  | nil => rfl
  | cons kv rest ih =>
    have hkv : kv.2 ≠ Value.vnil := h kv (List.mem_cons_self kv rest)
    have hrest : ∀ x ∈ rest, x.2 ≠ Value.vnil := fun x hx => h x (List.mem_cons_of_mem kv hx)
    have ihr := ih hrest
    cases hv : kv.2 with
    | vnil => exact absurd hv hkv
    | vbool b => simp [sanitizeVariables, reflectTypeKind, hv, ihr, List.filter, isFuncValue]
    | vnum n => simp [sanitizeVariables, reflectTypeKind, hv, ihr, List.filter, isFuncValue]
    | vstr s => simp [sanitizeVariables, reflectTypeKind, hv, ihr, List.filter, isFuncValue]
    | vfunc => simp [sanitizeVariables, reflectTypeKind, hv, ihr, List.filter, isFuncValue]

/-- Witness for the amended claim C5 at a concrete bag holding one string and
one function value. -/
theorem c5_witness :
    sanitizeVariables [("a", Value.vstr "x"), ("f", Value.vfunc)]
      = some [("a", Value.vstr "x")] := by
  have h := c5_sanitizeVariables_filters_functions
    [("a", Value.vstr "x"), ("f", Value.vfunc)] (by decide)
  simpa using h

/-- Claim C10: a nil interface value anywhere in the variable bag makes
`sanitizeVariables` — and hence `createScript`, in an otherwise fully
successful provisioning run — panic (dereferencing the nil `reflect.Type`
returned by `reflect.TypeOf(nil)`) instead of returning a sanitized bag or an
error. -/
theorem c10_nil_value_panics (vars : List (String × Value)) (k : String)
    (h : (k, Value.vnil) ∈ vars) :
    sanitizeVariables vars = none
    ∧ (createScript (allOkEnv emptyWorld) "d" (.expression "x") vars ⟨[], []⟩).1
        = .panic "reflect: call of reflect.Type.Kind on nil Type" := by
  have hs := sanitizeVariables_none_of_mem_nil vars k h
  refine ⟨hs, ?_⟩
  simp [createScript, allOkEnv, createPackageJSON, getDependencies, getExpression, hs]

/-- Witness for claim C10 at the one-binding bag carrying a nil value. -/
theorem c10_witness :
    sanitizeVariables [("a", Value.vnil)] = none
    ∧ (createScript (allOkEnv emptyWorld) "d" (.expression "x") [("a", Value.vnil)] ⟨[], []⟩).1
        = .panic "reflect: call of reflect.Type.Kind on nil Type" :=
  c10_nil_value_panics [("a", Value.vnil)] "a" (by simp)

/-- Claim C1 (code bug): for a `Package` executable whose installed manifest
holds TWO non-harness dependencies, `getExpression` returns a NIL error and
the empty expression — `errors.Wrapf` is applied to the nil error of the
successful manifest read, and `errors.Wrapf` of nil is nil — where the claim
requires an `AmbiguousOrMissingDependency` failure (no entry-point read is
attempted, but the call succeeds); and for ZERO non-harness dependencies it
panics on `dependencies[0]` instead of returning an error. -/
theorem c1_dependency_count_code_bug :
    getExpression twoDepWorld (.package "p") = .ok ""
    ∧ getExpression zeroDepWorld (.package "p")
        = .panic "index out of range [0] with length 0" := by
  constructor <;> rfl

/-- Claim C2 (code bug): for the two-character user code `a"` — code ending in
a double-quote — `strings.Trim` strips not only the closing quote added by
`json.Marshal` but also the quote belonging to the final `\"` escape, leaving
a dangling backslash; the embedded quoted literal then fails to decode as a
JSON string at all, while `json.Marshal`'s own untrimmed output does
round-trip at the same input, isolating the fault to the trim step. -/
theorem c2_escapeJSON_roundtrip_code_bug :
    escapeJSON ['a', '"'] = ['a', '\\']
    ∧ decodeJSONString ('"' :: (escapeJSON ['a', '"'] ++ ['"'])) = none
    ∧ decodeJSONString (goMarshalString ['a', '"']) = some ['a', '"'] := by
  refine ⟨rfl, rfl, rfl⟩

end Node

namespace Node

/-- Helper: when lookup and directory phases succeed, dependency resolution
yields `ds`, and the single `npm install` invocation fails (non-zero exit or
timeout), `createScript` stops with the install error and the filesystem keeps
the directory and manifest created during the attempt. -/
theorem createScript_install_fail (env : Env) (dir : String) (e : Executable)
    (vars : List (String × Value)) (fs : FS) (ds : List String)
    (hnode : env.nodeFound = true) (hnpm : env.npmFound = true)
    (hrm : env.removeAllOk = true) (hmk : env.mkdirOk = true)
    (hcp : env.createPkgFileOk = true) (hwp : env.writePkgFileOk = true)
    (hdeps : getDependencies e = .ok ds)
    (hrun : env.runInstall (installNodeModulesCmd factoryPackages dir ds) = false) :
    createScript env dir e vars fs
      = (.err (.errorf "install node modules"),
         ((fs.removeDir dir).addDir dir).addFile (dir ++ "/package.json")) := by
  simp [createScript, createPackageJSON, hnode, hnpm, hrm, hmk, hcp, hwp, hdeps, hrun]

/-- Claim C3 counterexample: a concrete run in which the install invocation
fails — `createScript` does return a provisioning error, but the directory
created during the attempt is still on disk afterwards, contradicting the
claimed atomicity. -/
theorem c3_counterexample_dir_left_behind :
    (createScript (installFailEnv emptyWorld) "d" (.expression "x") [] ⟨[], []⟩).1
      = .err (.errorf "install node modules")
    ∧ "d" ∈ (createScript (installFailEnv emptyWorld) "d" (.expression "x") [] ⟨[], []⟩).2.dirs := by
  refine ⟨rfl, ?_⟩
  simp [createScript, installFailEnv, allOkEnv, createPackageJSON, getDependencies,
    FS.removeDir, FS.addDir, FS.addFile]

/-- Claim C3 (amended: no cleanup happens on failure): if the package-manager
install invocation fails, `createScript` returns a provisioning error, but the
provisioned directory created during that attempt REMAINS on disk — no error
path of `createScript` removes it. -/
theorem c3_install_failure_keeps_directory (env : Env) (dir : String) (e : Executable)
    (vars : List (String × Value)) (fs : FS) (ds : List String)
    (hnode : env.nodeFound = true) (hnpm : env.npmFound = true)
    (hrm : env.removeAllOk = true) (hmk : env.mkdirOk = true)
    (hcp : env.createPkgFileOk = true) (hwp : env.writePkgFileOk = true)
    (hdeps : getDependencies e = .ok ds)
    (hrun : env.runInstall (installNodeModulesCmd factoryPackages dir ds) = false) :
    (createScript env dir e vars fs).1 = .err (.errorf "install node modules")
    ∧ dir ∈ (createScript env dir e vars fs).2.dirs := by
  have h := createScript_install_fail env dir e vars fs ds hnode hnpm hrm hmk hcp hwp hdeps hrun
  rw [h]
  exact ⟨rfl, List.mem_cons_self _ _⟩

/-- Witness for the amended claim C3 at a concrete failing install. -/
theorem c3_witness :
    (createScript (installFailEnv emptyWorld) "w" (.expression "y") [] ⟨["other"], []⟩).1
      = .err (.errorf "install node modules")
    ∧ "w" ∈ (createScript (installFailEnv emptyWorld) "w" (.expression "y") [] ⟨["other"], []⟩).2.dirs :=
  c3_install_failure_keeps_directory (installFailEnv emptyWorld) "w" (.expression "y")
    [] ⟨["other"], []⟩ [] rfl rfl rfl rfl rfl rfl rfl rfl

/-- Claim C6: dependency installation is one `npm` invocation whose argument
list is `install`, then the pinned harness-support packages rendered as
`name@version` (bare `name` when the version is empty), then the resolver's
modules; it runs under the hard 2-minute timeout; and a failed invocation
(non-zero exit or timeout) makes `createScript` fail rather than continue. -/
theorem c6_install_invocation (dir : String) (modules : List String) :
    (installNodeModulesCmd factoryPackages dir modules).path = "npm"
    ∧ (installNodeModulesCmd factoryPackages dir modules).args
        = "install" :: "node-fetch@2" :: "vm2@3" :: modules
    ∧ (installNodeModulesCmd factoryPackages dir modules).dir = dir
    ∧ (installNodeModulesCmd factoryPackages dir modules).timeoutMinutes = 2
    ∧ (∀ name ver, ver ≠ "" → packageArg (name, ver) = name ++ "@" ++ ver)
    ∧ (∀ name, packageArg (name, "") = name)
    ∧ (∀ (env : Env) (e : Executable) (vars : List (String × Value)) (fs : FS),
        env.nodeFound = true → env.npmFound = true → env.removeAllOk = true →
        env.mkdirOk = true → env.createPkgFileOk = true → env.writePkgFileOk = true →
        getDependencies e = .ok modules →
        env.runInstall (installNodeModulesCmd factoryPackages dir modules) = false →
        (createScript env dir e vars fs).1 = .err (.errorf "install node modules")) := by
  refine ⟨rfl, ?_, rfl, rfl, ?_, fun _ => rfl, ?_⟩
  · simp [installNodeModulesCmd, factoryPackages, packageArg]
  · intro name ver hv
    simp [packageArg, hv]
  · intro env e vars fs hnode hnpm hrm hmk hcp hwp hdeps hrun
    have h := createScript_install_fail env dir e vars fs modules hnode hnpm hrm hmk hcp hwp hdeps hrun
    rw [h]

/-- Witness for claim C6 at a concrete directory, module list and failing
install environment. -/
theorem c6_witness :
    (installNodeModulesCmd factoryPackages "w6" ["left-pad"]).args
      = ["install", "node-fetch@2", "vm2@3", "left-pad"]
    ∧ packageArg ("lodash", "") = "lodash"
    ∧ (createScript (installFailEnv emptyWorld) "w6" (.package "left-pad") [] ⟨[], []⟩).1
        = .err (.errorf "install node modules") := by
  refine ⟨(c6_install_invocation "w6" ["left-pad"]).2.1, ?_, ?_⟩
  · exact (c6_install_invocation "w6" ["left-pad"]).2.2.2.2.2.1 "lodash"
  · exact (c6_install_invocation "w6" ["left-pad"]).2.2.2.2.2.2
      (installFailEnv emptyWorld) (.package "left-pad") [] ⟨[], []⟩
      rfl rfl rfl rfl rfl rfl rfl rfl

end Node

namespace Node

/-- Claim C7: for a `Package` executable whose installed manifest has exactly
one non-harness-support dependency, an empty `main` field in that dependency's
own manifest is an error, and otherwise the entry-point file's full text is
returned verbatim as the user code, with no transformation applied. -/
theorem c7_package_entry_point (w : World) (name : String) (m : PackageJSON)
    (p : String) (dm : PackageJSON)
    (hm : w.runtimeManifest = .ok m)
    (hone : nonHarnessDeps m = [p])
    (hdm : w.depManifest p = .ok dm) :
    (dm.main = "" →
      getExpression w (.package name)
        = .err (.errorf ("package.json main for " ++ p ++ " is empty")))
    ∧ (∀ text, dm.main ≠ "" → w.mainFile p dm.main = .ok text →
        getExpression w (.package name) = .ok text) := by
  constructor
  · intro hmain
    simp only [getExpression, hm]
    rw [hone]
    simp [hdm, hmain]
  · intro text hmain hfile
    simp only [getExpression, hm]
    rw [hone]
    simp [hdm, hmain, hfile]

/-- Witness for claim C7: the single-dependency world returns the entry-point
text verbatim. -/
theorem c7_witness :
    getExpression oneDepWorld (.package "left-pad") = .ok "module.exports = x" :=
  (c7_package_entry_point oneDepWorld "left-pad"
      { main := "", dependencies := [("node-fetch", "2"), ("vm2", "3"), ("left-pad", "1")] }
      "left-pad" { main := "index.js", dependencies := [] }
      rfl (by decide) rfl).2
    "module.exports = x" (by decide) rfl

end Node

namespace Node

/-- Claim C8: for every `Expression` executable the harness user code is the
literal source wrapped between the two fixed literals, and that wrapper is a
single-argument function of the event which binds both aliases `$` and `_` to
the event before the user source (the bindings all sit in the head literal,
ahead of the substituted source). -/
theorem c8_expression_wrapper :
    (∀ (w : World) (src : String),
      getExpression w (.expression src)
        = .ok (expressionWrapHead ++ src ++ expressionWrapTail))
    ∧ seqContains "(event) => \x7b".data expressionWrapHead.data = true
    ∧ seqContains "let $ = event".data expressionWrapHead.data = true
    ∧ seqContains "let _ = event".data expressionWrapHead.data = true
    ∧ seqContains "\x7d".data expressionWrapTail.data = true := by
  refine ⟨fun w src => rfl, ?_, ?_, ?_, ?_⟩ <;> decide

end Node

namespace Handlers

/-- Claim C9: the template-testing handler answers 200 with the evaluation
result and format on success, 400 with the middleware body on body-parse
failure, 400 with the validation message on a missing object or empty
expression, and 400 with the error message in the `message` field on template
parse/execution failure; no other status is produced. -/
theorem c9_event_template_handler
    (bo : Except String EvaluateTemplateRequest)
    (ev evr : EvaluateTemplateRequest → String × String × Option String) :
    ((eventTemplateHandler bo ev evr).status = 200
      ∨ (eventTemplateHandler bo ev evr).status = 400)
    ∧ (∀ msg, bo = .error msg →
        eventTemplateHandler bo ev evr = ⟨400, middlewareErrResponse "Failed to parse body"⟩)
    ∧ (∀ req vmsg, bo = .ok req → req.Validate = some vmsg →
        eventTemplateHandler bo ev evr = ⟨400, middlewareErrResponse vmsg⟩)
    ∧ (∀ req res fmt emsg, bo = .ok req → req.Validate = none →
        (if req.reformat then evr req else ev req) = (res, fmt, some emsg) →
        eventTemplateHandler bo ev evr = ⟨400, .evalBody res emsg fmt⟩)
    ∧ (∀ req res fmt, bo = .ok req → req.Validate = none →
        (if req.reformat then evr req else ev req) = (res, fmt, none) →
        eventTemplateHandler bo ev evr = ⟨200, .evalBody res "" fmt⟩) := by
  refine ⟨?_, ?_, ?_, ?_, ?_⟩
  · cases bo with
    | error m => simp [eventTemplateHandler]
    | ok req =>
      cases hv : req.Validate with
      | some m => simp [eventTemplateHandler, hv]
      | none =>
        rcases hr : (if req.reformat then evr req else ev req) with ⟨res, fmt, o⟩
        cases o <;> simp [eventTemplateHandler, hv, hr]
  · intro msg hb
    subst hb
    rfl
  · intro req vmsg hb hv
    subst hb
    simp [eventTemplateHandler, hv]
  · intro req res fmt emsg hb hv hr
    subst hb
    simp [eventTemplateHandler, hv, hr]
  · intro req res fmt hb hv hr
    subst hb
    simp [eventTemplateHandler, hv, hr]

/-- Witness for claim C9: a well-formed request whose evaluation succeeds gets
status 200 with result and format. -/
theorem c9_witness :
    eventTemplateHandler (.ok ⟨some [], "x", false⟩)
        (fun _ => ("r", "f", none)) (fun _ => ("", "", none))
      = ⟨200, .evalBody "r" "" "f"⟩ :=
  (c9_event_template_handler (.ok ⟨some [], "x", false⟩)
      (fun _ => ("r", "f", none)) (fun _ => ("", "", none))).2.2.2.2
    ⟨some [], "x", false⟩ "r" "f" rfl (by decide) rfl

end Handlers
